import Mathlib

/-!
# Verification of the File-converter validation and conversion pipeline

Shallow embedding of the repository's validation and request-construction
pipeline (`lib/validation.ts`, `lib/converter.ts`, `lib/constants.ts`,
`app/actions/convert.ts`).  JavaScript strings are modelled as Lean
`String`s (lists of characters), JavaScript numbers carrying quality
values as `ℚ` (so that non-integer values such as 3.5 are representable),
byte buffers as `List Nat`, and the external Sharp image engine as an
abstract function from an encode job to `Except String (List Nat)`.
-/

namespace FileConverter

/-- `MAX_FILE_SIZE` from `lib/constants.ts`: 10 * 1024 * 1024 bytes. -/
def MAX_FILE_SIZE : Nat := 10 * 1024 * 1024

/-- `MAX_FILENAME_LENGTH` from `lib/constants.ts`. -/
def MAX_FILENAME_LENGTH : Nat := 255

/-- `DEFAULT_QUALITY` from `lib/constants.ts`. -/
def DEFAULT_QUALITY : ℚ := 90

/-- `ALLOWED_MIME_TYPES` from `lib/constants.ts`. -/
def ALLOWED_MIME_TYPES : List String :=
  ["image/jpeg", "image/jpg", "image/png", "image/webp",
   "image/avif", "image/tiff", "image/gif", "image/svg+xml"]

/-- The `ERROR_MESSAGES` record from `lib/constants.ts`.
`FILE_TOO_LARGE` interpolates `MAX_FILE_SIZE / (1024*1024) = 10`. -/
structure ErrorMessages where
  FILE_TOO_LARGE : String
  INVALID_FILE_TYPE : String
  NO_FILE_SELECTED : String
  CONVERSION_FAILED : String
  INVALID_FORMAT : String
  SERVER_ERROR : String

def ERROR_MESSAGES : ErrorMessages :=
  { FILE_TOO_LARGE := "File size exceeds 10MB limit"
    INVALID_FILE_TYPE := "Invalid file type. Please upload an image file"
    NO_FILE_SELECTED := "Please select a file to convert"
    CONVERSION_FAILED := "Failed to convert file. Please try again"
    INVALID_FORMAT := "Invalid target format selected"
    SERVER_ERROR := "Server error occurred. Please try again later" }

/-- A browser `File` object as the validation code reads it:
declared name, declared byte size, declared MIME type, payload bytes. -/
structure File where
  name : String
  size : Nat
  type : String
  content : List Nat
deriving DecidableEq

/-- `ValidationResult` from `lib/types.ts` as used by `lib/validation.ts`:
an `isValid` flag plus an optional error message. -/
structure ValidationResult where
  isValid : Bool
  error : Option String := none
deriving DecidableEq

/-- Character class `[a-zA-Z0-9._-]` of `sanitizeFilename`
(`lib/validation.ts`): the characters NOT replaced by an underscore. -/
def isAllowedChar (c : Char) : Bool :=
  (decide (Char.ofNat 97 ≤ c) && decide (c ≤ Char.ofNat 122)) ||
  (decide (Char.ofNat 65 ≤ c) && decide (c ≤ Char.ofNat 90)) ||
  (decide (Char.ofNat 48 ≤ c) && decide (c ≤ Char.ofNat 57)) ||
  c = Char.ofNat 46 || c = Char.ofNat 95 || c = Char.ofNat 45

/-- The dot character, spelled via its code point 46. -/
def dotChar : Char := Char.ofNat 46

/-- The underscore character, code point 95. -/
def usChar : Char := Char.ofNat 95

/-- `.replace(/\.{2,}/g, ".")` of `sanitizeFilename`: every maximal run
of two or more dots is collapsed to a single dot; isolated dots and all
other characters are kept. -/
def collapseDots : List Char → List Char
  | [] => []
  | [c] => [c]
  | a :: b :: rest =>
    if a = dotChar ∧ b = dotChar then collapseDots (b :: rest)
    else a :: collapseDots (b :: rest)

/-- `sanitizeFilename` from `lib/validation.ts` on character lists:
replace characters outside `[a-zA-Z0-9._-]` by an underscore, collapse
runs of dots, strip leading dots, truncate to `MAX_FILENAME_LENGTH`. -/
def sanitizeList (l : List Char) : List Char :=
  ((collapseDots (l.map fun c => if isAllowedChar c then c else usChar)).dropWhile
      fun c => c = dotChar).take MAX_FILENAME_LENGTH

/-- `sanitizeFilename` from `lib/validation.ts` on `String`. -/
def sanitizeFilename (s : String) : String :=
  String.mk (sanitizeList s.data)

/-- `validateQuality` from `lib/validation.ts`.  The argument is a
JavaScript number or `undefined`; numbers are modelled as `ℚ`.  The
`typeof quality !== "number"` disjunct is statically true for a present
number, so the present case rejects exactly when `q < 1 ∨ q > 100`. -/
def validateQuality : Option ℚ → ValidationResult
  | none => { isValid := true }
  | some q =>
    if q < 1 ∨ q > 100 then
      { isValid := false, error := some "Quality must be a number between 1 and 100" }
    else { isValid := true }

/-- The media-type rejection message built by `validateFile`:
`INVALID_FILE_TYPE` followed by the joined allow-list. -/
def mediaTypeErrorMsg : String :=
  ERROR_MESSAGES.INVALID_FILE_TYPE ++ ". Allowed types: " ++
    String.intercalate ", " ALLOWED_MIME_TYPES

/-- The filename-length rejection message built by `validateFile`. -/
def filenameTooLongMsg : String :=
  "Filename too long. Maximum " ++ toString MAX_FILENAME_LENGTH ++ " characters allowed"

/-- `validateFile` from `lib/validation.ts`: existence, size ceiling
(strict `>`), non-emptiness, MIME allow-list, filename length, and the
requirement that sanitization leaves the filename unchanged. -/
def validateFile : Option File → ValidationResult
  | none => { isValid := false, error := some ERROR_MESSAGES.NO_FILE_SELECTED }
  | some file =>
    if file.size > MAX_FILE_SIZE then
      { isValid := false, error := some ERROR_MESSAGES.FILE_TOO_LARGE }
    else if file.size = 0 then
      { isValid := false, error := some "File is empty" }
    else if ¬ (file.type ∈ ALLOWED_MIME_TYPES) then
      { isValid := false, error := some mediaTypeErrorMsg }
    else if file.name.length > MAX_FILENAME_LENGTH then
      { isValid := false, error := some filenameTooLongMsg }
    else if sanitizeFilename file.name ≠ file.name then
      { isValid := false, error := some "Filename contains invalid characters" }
    else { isValid := true }

/-- `validateFileExtension` helper table from `lib/validation.ts`
(MIME type to allowed extensions). -/
def mimeToExtension : List (String × List String) :=
  [("image/jpeg", ["jpg", "jpeg"]),
   ("image/png", ["png"]),
   ("image/webp", ["webp"]),
   ("image/avif", ["avif"]),
   ("image/tiff", ["tiff", "tif"]),
   ("image/gif", ["gif"]),
   ("image/svg+xml", ["svg"])]

/-- The `SupportedFormat` union type (`lib/types.ts`), whose members are
exactly the keys of the `Record<SupportedFormat, _>` tables in
`lib/converter.ts`. -/
inductive SupportedFormat
  | jpeg | jpg | png | webp | avif | tiff | gif
deriving DecidableEq, Fintype

/-- The string literal denoting each `SupportedFormat` member. -/
def SupportedFormat.str : SupportedFormat → String
  | .jpeg => "jpeg"
  | .jpg => "jpg"
  | .png => "png"
  | .webp => "webp"
  | .avif => "avif"
  | .tiff => "tiff"
  | .gif => "gif"

/-- The `extensions : Record<SupportedFormat, string>` table inside
`getFileExtension` (`lib/converter.ts`), as the key-value list the
runtime object holds. -/
def extensionTable : List (String × String) :=
  [("jpeg", ".jpg"), ("jpg", ".jpg"), ("png", ".png"), ("webp", ".webp"),
   ("avif", ".avif"), ("tiff", ".tiff"), ("gif", ".gif")]

/-- The `mimeTypes : Record<SupportedFormat, string>` table inside
`getMimeType` (`lib/converter.ts`). -/
def mimeTable : List (String × String) :=
  [("jpeg", "image/jpeg"), ("jpg", "image/jpeg"), ("png", "image/png"),
   ("webp", "image/webp"), ("avif", "image/avif"), ("tiff", "image/tiff"),
   ("gif", "image/gif")]

/-- `getFileExtension` from `lib/converter.ts`: table lookup with the
`|| ".jpg"` fallback (at runtime the format value is a string, so the
lookup can miss). -/
def getFileExtension (format : String) : String :=
  match extensionTable.lookup format with
  | some ext => ext
  | none => ".jpg"

/-- `getMimeType` from `lib/converter.ts`: table lookup with the
`|| "image/jpeg"` fallback. -/
def getMimeType (format : String) : String :=
  match mimeTable.lookup format with
  | some m => m
  | none => "image/jpeg"

/-- `ConversionOptions` (`lib/types.ts`) as destructured by
`convertImage` in `lib/converter.ts`: target format, optional quality,
optional resize dimensions, optional fit mode. -/
structure ConversionOptions where
  format : String
  quality : Option ℚ := none
  width : Option Int := none
  height : Option Int := none
  fit : Option String := none
deriving DecidableEq

/-- The resize parameters `convertImage` hands to Sharp when resizing:
`image.resize(width, height, { fit, withoutEnlargement: true })`. -/
structure ResizeSpec where
  width : Option Int
  height : Option Int
  fit : String
  withoutEnlargement : Bool
deriving DecidableEq

/-- The per-format encode call `convertImage` makes on the Sharp
instance, with the exact option values from `lib/converter.ts`. -/
inductive EncodeSpec
  | jpeg (quality : ℚ) (progressive : Bool) (mozjpeg : Bool)
  | png (compressionLevel : Nat) (progressive : Bool) (palette : Bool)
  | webp (quality : ℚ) (lossless : Bool) (nearLossless : Bool) (effort : Nat)
  | avif (quality : ℚ) (effort : Nat) (chromaSubsampling : String)
  | tiff (quality : ℚ) (compression : String)
  | gif (colors : Nat)
deriving DecidableEq

/-- The quality field of an encode call, when the format takes one
(png and gif encoders take no quality parameter). -/
def EncodeSpec.qualityOf : EncodeSpec → Option ℚ
  | .jpeg q _ _ => some q
  | .webp q _ _ _ => some q
  | .avif q _ _ => some q
  | .tiff q _ => some q
  | .png _ _ _ => none
  | .gif _ => none

/-- One complete job submitted to the external Sharp engine: input
bytes, the optional resize step, and the encode call. -/
structure EncodeJob where
  input : List Nat
  resize : Option ResizeSpec
  encode : EncodeSpec
deriving DecidableEq

/-- The external image engine (Sharp pipeline execution, triggered by
`.toBuffer()`): bytes in, bytes out, or a processing error. -/
def Engine : Type := EncodeJob → Except String (List Nat)

/-- JavaScript truthiness of `width` / `height` in
`if (width || height)`: present and nonzero. -/
def truthyNum : Option Int → Bool
  | none => false
  | some n => decide (n ≠ 0)

/-- The `image.resize(width, height, { fit, withoutEnlargement: true })`
step of `convertImage` (`lib/converter.ts`), applied only when
`width || height` is truthy; `fit` defaults to "inside" when absent. -/
def buildResize (options : ConversionOptions) : Option ResizeSpec :=
  if truthyNum options.width || truthyNum options.height then
    some { width := options.width, height := options.height,
           fit := options.fit.getD "inside", withoutEnlargement := true }
  else none

/-- The `switch (format)` of `convertImage` (`lib/converter.ts`): the
encode call for each supported format string, with
`quality = options.quality ?? DEFAULT_QUALITY`; an unknown format yields
no encode call (the `default:` branch throws instead). -/
def buildSpec (options : ConversionOptions) : Option EncodeSpec :=
  let quality := options.quality.getD DEFAULT_QUALITY
  if options.format = "jpeg" ∨ options.format = "jpg" then
    some (.jpeg quality true true)
  else if options.format = "png" then
    some (.png 9 true true)
  else if options.format = "webp" then
    some (.webp quality (decide (quality = 100)) (decide (quality > 90)) 6)
  else if options.format = "avif" then
    some (.avif quality 4 "4:4:4")
  else if options.format = "tiff" then
    some (.tiff quality "lzw")
  else if options.format = "gif" then
    some (.gif 256)
  else none

/-- The job `convertImage` assembles before running the engine: input
bytes, the optional resize step, and the format-dispatched encode call. -/
def buildJob (inputBuffer : List Nat) (options : ConversionOptions) :
    Option EncodeJob :=
  match buildSpec options with
  | some spec => some ⟨inputBuffer, buildResize options, spec⟩
  | none => none

/-- `convertImage` from `lib/converter.ts`.  The surrounding
`try/catch` wraps every thrown error — engine failures and the
`default:` branch's `Unsupported format` throw alike — into
`Failed to convert image: <original message>` (the original message is
interpolated into the rethrown error). -/
def convertImage (engine : Engine) (inputBuffer : List Nat)
    (options : ConversionOptions) : Except String (List Nat) :=
  match buildJob inputBuffer options with
  | some job =>
    match engine job with
    | .ok buf => .ok buf
    | .error msg => .error ("Failed to convert image: " ++ msg)
  | none =>
    .error ("Failed to convert image: Unsupported format: " ++ options.format)

/-- The form fields `convertFile` (`app/actions/convert.ts`) extracts
from the `FormData`, after the `parseInt` steps on quality, width and
height (`qualityStr ? parseInt(qualityStr, 10) : undefined`).
`targetFormat := none` models a missing/null field and `some ""` an
empty string; both are falsy in `if (!targetFormat)`. -/
structure FormDataModel where
  file : Option File
  targetFormat : Option String
  quality : Option Int := none
  width : Option Int := none
  height : Option Int := none
deriving DecidableEq

/-- The parsed integer quality viewed as a JavaScript number. -/
def qualityToRat (q : Option Int) : Option ℚ :=
  q.map fun n => (n : ℚ)

/-- JavaScript falsiness of the extracted `targetFormat` string. -/
def falsyFmt : Option String → Bool
  | none => true
  | some s => decide (s = "")

/-- `ConversionResponse` (`lib/types.ts`) as populated by
`app/actions/convert.ts`. -/
structure ConversionResponse where
  success : Bool
  data : Option (List Nat) := none
  fileName : Option String := none
  mimeType : Option String := none
  error : Option String := none
  message : Option String := none
deriving DecidableEq

/-- `convertFile` from `app/actions/convert.ts`: validate the file,
validate the quality, reject a falsy target format, run `convertImage`,
and on success derive the output name as `name.split(".")[0]` — the
prefix of the name before its first dot, modelled by `takeWhile` — plus
the target extension.  The `catch` returns `error.message` (the message
thrown by `convertImage`) in the failure envelope.  The branch for a
missing file after successful validation is unreachable, since
`validateFile none` is invalid. -/
def convertFile (engine : Engine) (form : FormDataModel) : ConversionResponse :=
  let fileValidation := validateFile form.file
  if fileValidation.isValid = false then
    { success := false, error := fileValidation.error }
  else
    let qualityValidation := validateQuality (qualityToRat form.quality)
    if qualityValidation.isValid = false then
      { success := false, error := qualityValidation.error }
    else if falsyFmt form.targetFormat then
      { success := false, error := some ERROR_MESSAGES.INVALID_FORMAT }
    else
      match form.file, form.targetFormat with
      | some validFile, some targetFormat =>
        match convertImage engine validFile.content
            { format := targetFormat, quality := qualityToRat form.quality,
              width := form.width, height := form.height } with
        | .ok outputBuffer =>
          let originalName :=
            String.mk (validFile.name.data.takeWhile fun c => !(c == dotChar))
          let newExtension := getFileExtension targetFormat
          { success := true, data := some outputBuffer,
            fileName := some (originalName ++ newExtension),
            mimeType := some (getMimeType targetFormat),
            message := some "File converted successfully" }
        | .error msg => { success := false, error := some msg }
      | _, _ => { success := false, error := some ERROR_MESSAGES.SERVER_ERROR }

/-- The format strings `convertImage` dispatches on — the members of
the supported-format enumeration, as strings. -/
def supportedFormatStrings : List String :=
  ["jpeg", "jpg", "png", "webp", "avif", "tiff", "gif"]

/-- Stub engine that succeeds on every job. -/
def okStubEngine : Engine := fun _ => Except.ok [0]

/-- Stub engine that always fails with an internal low-level message. -/
def failStubEngine : Engine := fun _ => Except.error "boom_internal_detail"

/-- Concrete file fixture: exactly `MAX_FILE_SIZE` bytes. -/
def boundaryFile : File :=
  { name := "a.png", size := 10485760, type := "image/png", content := [1] }

/-- Concrete file fixture: one byte over the 10 MiB ceiling. -/
def oversizedFile : File :=
  { name := "a.png", size := 10485761, type := "image/png", content := [1] }

/-- Concrete file fixture: declared size zero. -/
def emptyFile : File :=
  { name := "a.png", size := 0, type := "image/png", content := [] }

/-- Concrete file fixture: a media type outside the allow-list. -/
def textFile : File :=
  { name := "a.txt", size := 5, type := "text/plain", content := [1] }

/-- Concrete file fixture: a small valid PNG upload. -/
def smallPngFile : File :=
  { name := "a.png", size := 5, type := "image/png", content := [1] }

/-- Concrete file fixture: a valid PNG whose name has two dots. -/
def multiDotFile : File :=
  { name := "photo.backup.png", size := 2048, type := "image/png", content := [1] }

/-- Concrete form fixture: a valid PNG upload asking for the unknown
target format "bogus". -/
def bogusFormatForm : FormDataModel :=
  { file := some smallPngFile, targetFormat := some "bogus" }

/-- Concrete form fixture: a valid PNG upload asking for tiff output. -/
def tiffForm : FormDataModel :=
  { file := some smallPngFile, targetFormat := some "tiff" }

/-- Concrete options fixture: webp output, no quality, width 100. -/
def webpResizeOptions : ConversionOptions :=
  { format := "webp", quality := none, width := some 100, height := none,
    fit := none }

/-- The job `buildJob` produces for `webpResizeOptions` on input [1]:
default quality 90 (so neither the lossless nor the near-lossless flag
is set) and an "inside"/no-enlargement resize. -/
def webpResizeJob : EncodeJob :=
  { input := [1],
    resize := some { width := some 100, height := none, fit := "inside",
                     withoutEnlargement := true },
    encode := .webp 90 false false 6 }

/-- Concrete options fixture: png output with a width far above the
claimed 10000 bound. -/
def overWidthOptions : ConversionOptions :=
  { format := "png", quality := none, width := some 20000, height := none,
    fit := none }

/-- The job `buildJob` produces for `overWidthOptions` on input [1]:
the out-of-bound width is forwarded unchanged. -/
def overWidthJob : EncodeJob :=
  { input := [1],
    resize := some { width := some 20000, height := none, fit := "inside",
                     withoutEnlargement := true },
    encode := .png 9 true true }

/-! ### Canonical sanitized form

The output of `sanitizeFilename` always satisfies four invariants: every
character is in `[a-zA-Z0-9._-]`, no two consecutive dots, no leading
dot, and length at most `MAX_FILENAME_LENGTH`.  A filename satisfying
them is in canonical sanitized form, and sanitization is the identity on
such names — together this gives idempotence. -/

/-- No two consecutive dots occur in the character list. -/
def noDoubleDot : List Char → Bool
  | [] => true
  | [_] => true
  | a :: b :: rest => !(a == dotChar && b == dotChar) && noDoubleDot (b :: rest)

/-- Canonical sanitized form on character lists: only characters from
`[a-zA-Z0-9._-]`, no consecutive dots, no leading dot, and length within
`MAX_FILENAME_LENGTH`. -/
def isCanonicalList (l : List Char) : Bool :=
  l.all isAllowedChar && noDoubleDot l &&
    !(l.head? == some dotChar) && decide (l.length ≤ MAX_FILENAME_LENGTH)

/-- Canonical sanitized form on `String`. -/
def isCanonical (s : String) : Bool := isCanonicalList s.data

theorem noDoubleDot_tail (a : Char) (l : List Char)
    (h : noDoubleDot (a :: l) = true) : noDoubleDot l = true := by
  cases l with
  | nil => rfl
  | cons b t =>
    simp only [noDoubleDot, Bool.and_eq_true] at h
    exact h.2

theorem noDoubleDot_cons (a : Char) (xs : List Char)
    (h1 : noDoubleDot xs = true)
    (h2 : ∀ c, xs.head? = some c → ¬(a = dotChar ∧ c = dotChar)) :
    noDoubleDot (a :: xs) = true := by
  cases xs with
  | nil => rfl
  | cons c t =>
    have hc := h2 c rfl
    simp only [noDoubleDot, Bool.and_eq_true, Bool.not_eq_true']
    refine ⟨?_, h1⟩
    by_cases hac : a = dotChar
    · by_cases hcc : c = dotChar
      · exact absurd ⟨hac, hcc⟩ hc
      · simp [hac, hcc]
    · simp [hac]

/-- `collapseDots` keeps the head character. -/
theorem collapseDots_head (l : List Char) :
    (collapseDots l).head? = l.head? := by
  induction l using collapseDots.induct with
  | case1 => rfl
  | case2 c => rfl
  | case3 a b rest hab ih =>
    rw [collapseDots, if_pos hab, ih]
    simp [hab.1, hab.2]
  | case4 a b rest hab ih =>
    rw [collapseDots, if_neg hab]
    rfl

/-- `collapseDots` only keeps characters of its input. -/
theorem collapseDots_all (p : Char → Bool) (l : List Char)
    (h : l.all p = true) : (collapseDots l).all p = true := by
  induction l using collapseDots.induct with
  | case1 => rfl
  | case2 c => exact h
  | case3 a b rest hab ih =>
    rw [collapseDots, if_pos hab]
    rw [List.all_cons, Bool.and_eq_true] at h
    exact ih h.2
  | case4 a b rest hab ih =>
    rw [collapseDots, if_neg hab]
    rw [List.all_cons, Bool.and_eq_true] at h
    rw [List.all_cons, Bool.and_eq_true]
    exact ⟨h.1, ih h.2⟩

/-- After `collapseDots` no two consecutive dots remain. -/
theorem noDoubleDot_collapseDots (l : List Char) :
    noDoubleDot (collapseDots l) = true := by
  induction l using collapseDots.induct with
  | case1 => rfl
  | case2 c => rfl
  | case3 a b rest hab ih =>
    simp only [collapseDots, if_pos hab]
    exact ih
  | case4 a b rest hab ih =>
    simp only [collapseDots, if_neg hab]
    refine noDoubleDot_cons a _ ih ?_
    intro c hc
    rw [collapseDots_head, List.head?_cons, Option.some.injEq] at hc
    intro hcontra
    exact hab ⟨hcontra.1, hc ▸ hcontra.2⟩

/-- `collapseDots` is the identity when no two consecutive dots occur. -/
theorem collapseDots_of_noDoubleDot (l : List Char)
    (h : noDoubleDot l = true) : collapseDots l = l := by
  induction l using collapseDots.induct with
  | case1 => rfl
  | case2 c => rfl
  | case3 a b rest hab ih =>
    exfalso
    simp only [noDoubleDot, Bool.and_eq_true, Bool.not_eq_true',
      Bool.and_eq_false_iff, beq_eq_false_iff_ne] at h
    rcases h.1 with hna | hnb
    · exact hna hab.1
    · exact hnb hab.2
  | case4 a b rest hab ih =>
    simp only [collapseDots, if_neg hab]
    rw [ih (noDoubleDot_tail a _ h)]

/-- The head surviving `dropWhile` fails the dropped predicate. -/
theorem dropWhile_head_false {α : Type} (p : α → Bool) (l : List α) :
    ∀ c, (l.dropWhile p).head? = some c → p c = false := by
  induction l with
  | nil => intro c hc; simp [List.dropWhile] at hc
  | cons a t ih =>
    intro c hc
    rw [List.dropWhile_cons] at hc
    by_cases h : p a = true
    · rw [if_pos h] at hc
      exact ih c hc
    · rw [if_neg h] at hc
      rw [List.head?_cons, Option.some.injEq] at hc
      rw [← hc]
      exact Bool.eq_false_iff.mpr h

/-- `dropWhile` is the identity when the head already fails the
predicate. -/
theorem dropWhile_of_head_false {α : Type} (p : α → Bool) (l : List α)
    (h : ∀ c, l.head? = some c → p c = false) : l.dropWhile p = l := by
  cases l with
  | nil => rfl
  | cons a t =>
    rw [List.dropWhile_cons, if_neg]
    rw [h a rfl]
    simp

/-- A sublist keeps the all-characters property. -/
theorem all_of_sublist {α : Type} (p : α → Bool) {l1 l2 : List α}
    (hs : l1.Sublist l2) (h : l2.all p = true) : l1.all p = true := by
  rw [List.all_eq_true] at h ⊢
  exact fun x hx => h x (hs.subset hx)

/-- `dropWhile` keeps the no-consecutive-dots property. -/
theorem noDoubleDot_dropWhile (p : Char → Bool) (l : List Char)
    (h : noDoubleDot l = true) : noDoubleDot (l.dropWhile p) = true := by
  induction l with
  | nil => rfl
  | cons a t ih =>
    rw [List.dropWhile_cons]
    by_cases hp : p a = true
    · rw [if_pos hp]
      exact ih (noDoubleDot_tail a t h)
    · rw [if_neg hp]
      exact h

/-- The head of a nonempty `take` is the head of the list. -/
theorem head?_take_eq {α : Type} (n : Nat) (l : List α) (c : α)
    (h : (l.take n).head? = some c) : l.head? = some c := by
  cases l with
  | nil => simp at h
  | cons a t =>
    cases n with
    | zero => simp at h
    | succ m =>
      rw [List.take_succ_cons, List.head?_cons] at h
      rw [List.head?_cons]
      exact h

/-- `take` keeps the no-consecutive-dots property. -/
theorem noDoubleDot_take (n : Nat) (l : List Char)
    (h : noDoubleDot l = true) : noDoubleDot (l.take n) = true := by
  induction l generalizing n with
  | nil => simp [noDoubleDot]
  | cons a t ih =>
    cases n with
    | zero => rfl
    | succ m =>
      rw [List.take_succ_cons]
      refine noDoubleDot_cons a _ (ih m (noDoubleDot_tail a t h)) ?_
      intro c hc hcontra
      have hhead := head?_take_eq m t c hc
      cases t with
      | nil => simp at hhead
      | cons b t2 =>
        rw [List.head?_cons, Option.some.injEq] at hhead
        simp only [noDoubleDot, Bool.and_eq_true, Bool.not_eq_true',
          Bool.and_eq_false_iff, beq_eq_false_iff_ne] at h
        rcases h.1 with hna | hnb
        · exact hna hcontra.1
        · exact hnb (hhead ▸ hcontra.2)

/-- The sanitizer's character-replacement pass outputs only allowed
characters. -/
theorem map_step_allowed (l : List Char) :
    (l.map fun c => if isAllowedChar c then c else usChar).all isAllowedChar = true := by
  rw [List.all_eq_true]
  intro x hx
  rw [List.mem_map] at hx
  obtain ⟨c, _, hc⟩ := hx
  by_cases h : isAllowedChar c = true
  · rw [← hc, if_pos h]; exact h
  · rw [← hc, if_neg h]; rfl

/-- The character-replacement pass is the identity on allowed
characters. -/
theorem map_step_id (l : List Char) (h : l.all isAllowedChar = true) :
    (l.map fun c => if isAllowedChar c then c else usChar) = l := by
  induction l with
  | nil => rfl
  | cons a t ih =>
    rw [List.all_cons, Bool.and_eq_true] at h
    rw [List.map_cons, if_pos h.1, ih h.2]

/-- Every output of the sanitizer is in canonical sanitized form. -/
theorem sanitizeList_canonical (l : List Char) :
    isCanonicalList (sanitizeList l) = true := by
  rw [isCanonicalList]
  simp only [Bool.and_eq_true]
  refine ⟨⟨⟨?_, ?_⟩, ?_⟩, ?_⟩
  · exact all_of_sublist _ (List.take_sublist _ _)
      (all_of_sublist _ (List.dropWhile_sublist _) (collapseDots_all _ _ (map_step_allowed l)))
  · exact noDoubleDot_take _ _ (noDoubleDot_dropWhile _ _ (noDoubleDot_collapseDots _))
  · rw [Bool.not_eq_true', beq_eq_false_iff_ne]
    intro hcontra
    have hc := head?_take_eq _ _ _ hcontra
    have := dropWhile_head_false (fun c => c = dotChar) _ _ hc
    simp at this
  · rw [decide_eq_true_eq, sanitizeList, List.length_take]
    exact le_trans inf_le_left (le_refl _)

/-- Sanitization is the identity on canonical sanitized names. -/
theorem sanitizeList_of_canonical (l : List Char)
    (h : isCanonicalList l = true) : sanitizeList l = l := by
  rw [isCanonicalList] at h
  simp only [Bool.and_eq_true, Bool.not_eq_true', beq_eq_false_iff_ne,
    decide_eq_true_eq] at h
  obtain ⟨⟨⟨hall, hdd⟩, hhead⟩, hlen⟩ := h
  rw [sanitizeList, map_step_id l hall, collapseDots_of_noDoubleDot l hdd,
    dropWhile_of_head_false _ l ?_, List.take_of_length_le hlen]
  intro c hc
  rw [decide_eq_false_iff_not]
  intro hcd
  exact hhead (by rw [hc, hcd])

/-- Sanitization is idempotent on character lists. -/
theorem sanitizeList_idem (l : List Char) :
    sanitizeList (sanitizeList l) = sanitizeList l :=
  sanitizeList_of_canonical _ (sanitizeList_canonical l)

/-! ### Claim theorems -/

/-- C1 (counterexample): the claim says every non-integer quality such
as 3.5 is rejected, but `validateQuality` only compares against the
bounds 1 and 100 and never checks integrality: 3.5 (= 7/2), which is
not an integer, is accepted. -/
theorem validateQuality_accepts_noninteger :
    (∀ n : ℤ, (7 / 2 : ℚ) ≠ (n : ℚ)) ∧
    validateQuality (some (7 / 2 : ℚ)) = { isValid := true, error := none } := by
  constructor
  · intro n h
    have hden : ((7 : ℚ) / 2).den = 2 := by norm_num
    have hden2 : ((n : ℚ)).den = 1 := Rat.den_intCast n
    rw [h, hden2] at hden
    exact absurd hden (by norm_num)
  · norm_num [validateQuality]

/-- C1 (amended): `validateQuality` accepts an absent quality; a present
quality is accepted exactly when it lies in [1,100] — with no
integrality requirement — and every rejection carries the range error
message. -/
theorem validateQuality_range_check (q : ℚ) :
    validateQuality none = { isValid := true, error := none } ∧
    ((validateQuality (some q)).isValid = true ↔ 1 ≤ q ∧ q ≤ 100) ∧
    ((validateQuality (some q)).isValid = false →
      (validateQuality (some q)).error =
        some "Quality must be a number between 1 and 100") := by
  refine ⟨rfl, ?_, ?_⟩
  · by_cases h : q < 1 ∨ q > 100
    · rw [validateQuality, if_pos h]
      constructor
      · intro hh; exact absurd hh (by decide)
      · intro hh
        rcases h with h | h
        · exact absurd hh.1 (not_le.mpr h)
        · exact absurd hh.2 (not_le.mpr h)
    · have hcond := h
      push_neg at hcond
      rw [validateQuality, if_neg h]
      constructor
      · intro _; exact hcond
      · intro _; rfl
  · by_cases h : q < 1 ∨ q > 100
    · rw [validateQuality, if_pos h]
      intro _; rfl
    · rw [validateQuality, if_neg h]
      intro hh; exact absurd hh (by decide)

/-- C1 (witness): quality 0 is rejected with the range message, via the
amended theorem. -/
theorem validateQuality_range_check_witness :
    (validateQuality (some (0 : ℚ))).isValid = false ∧
    (validateQuality (some (0 : ℚ))).error =
      some "Quality must be a number between 1 and 100" :=
  ⟨by decide, (validateQuality_range_check 0).2.2 (by decide)⟩

/-- C10: a file whose declared size is exactly `MAX_FILE_SIZE`
(10*1024*1024 bytes) is never rejected as too large: the size ceiling
uses strict greater-than. -/
theorem boundary_size_not_too_large (f : File) (h : f.size = MAX_FILE_SIZE) :
    (validateFile (some f)).error ≠ some ERROR_MESSAGES.FILE_TOO_LARGE := by
  rw [validateFile, if_neg (by rw [h]; exact lt_irrefl MAX_FILE_SIZE)]
  by_cases h2 : f.size = 0
  · rw [if_pos h2]
    intro hc; rw [Option.some.injEq] at hc; exact absurd hc (by decide)
  · rw [if_neg h2]
    by_cases h3 : f.type ∈ ALLOWED_MIME_TYPES
    · rw [if_neg (not_not_intro h3)]
      by_cases h4 : f.name.length > MAX_FILENAME_LENGTH
      · rw [if_pos h4]
        intro hc; rw [Option.some.injEq] at hc; exact absurd hc (by decide)
      · rw [if_neg h4]
        by_cases h5 : sanitizeFilename f.name ≠ f.name
        · rw [if_pos h5]
          intro hc; rw [Option.some.injEq] at hc; exact absurd hc (by decide)
        · rw [if_neg h5]
          exact fun hc => Option.noConfusion hc
    · rw [if_pos h3]
      intro hc; rw [Option.some.injEq] at hc; exact absurd hc (by decide)

/-- C10 (witness): the boundary theorem applied to a concrete file of
exactly 10485760 bytes. -/
theorem boundary_size_not_too_large_witness :
    boundaryFile.size = MAX_FILE_SIZE ∧
    (validateFile (some boundaryFile)).error ≠
      some ERROR_MESSAGES.FILE_TOO_LARGE :=
  ⟨by decide, boundary_size_not_too_large boundaryFile (by decide)⟩

/-- C2: `validateFile` rejects any file over the 10 MiB ceiling with
`FILE_TOO_LARGE` regardless of content, rejects a declared size of 0
with the empty-file error, rejects a media type outside the allow-list
with the media-type error (once the size checks pass, which run first),
and never rejects an allow-listed media type on the media-type basis. -/
theorem validateFile_size_and_type_checks (f : File) :
    (f.size > MAX_FILE_SIZE →
      validateFile (some f) =
        { isValid := false, error := some ERROR_MESSAGES.FILE_TOO_LARGE }) ∧
    (f.size = 0 →
      validateFile (some f) =
        { isValid := false, error := some "File is empty" }) ∧
    (0 < f.size → f.size ≤ MAX_FILE_SIZE → f.type ∉ ALLOWED_MIME_TYPES →
      validateFile (some f) =
        { isValid := false, error := some mediaTypeErrorMsg }) ∧
    (f.type ∈ ALLOWED_MIME_TYPES →
      (validateFile (some f)).error ≠ some mediaTypeErrorMsg) := by
  refine ⟨?_, ?_, ?_, ?_⟩
  · intro h
    simp only [validateFile]
    rw [if_pos h]
  · intro h
    simp only [validateFile]
    rw [if_neg (by rw [h]; exact Nat.not_lt.mpr (Nat.zero_le _)), if_pos h]
  · intro h1 h2 h3
    simp only [validateFile]
    rw [if_neg (Nat.not_lt.mpr h2), if_neg (Nat.pos_iff_ne_zero.mp h1),
      if_pos h3]
  · intro h
    rw [validateFile]
    by_cases h1 : f.size > MAX_FILE_SIZE
    · rw [if_pos h1]
      intro hc; rw [Option.some.injEq] at hc; exact absurd hc (by decide)
    · rw [if_neg h1]
      by_cases h2 : f.size = 0
      · rw [if_pos h2]
        intro hc; rw [Option.some.injEq] at hc; exact absurd hc (by decide)
      · rw [if_neg h2, if_neg (not_not_intro h)]
        by_cases h4 : f.name.length > MAX_FILENAME_LENGTH
        · rw [if_pos h4]
          intro hc; rw [Option.some.injEq] at hc; exact absurd hc (by decide)
        · rw [if_neg h4]
          by_cases h5 : sanitizeFilename f.name ≠ f.name
          · rw [if_pos h5]
            intro hc; rw [Option.some.injEq] at hc; exact absurd hc (by decide)
          · rw [if_neg h5]
            exact fun hc => Option.noConfusion hc

/-- C2 (witness): the four conjuncts instantiated at concrete files —
a 10485761-byte file, an empty file, a `text/plain` file, and a valid
PNG. -/
theorem validateFile_size_and_type_checks_witness :
    validateFile (some oversizedFile) =
      { isValid := false, error := some ERROR_MESSAGES.FILE_TOO_LARGE } ∧
    validateFile (some emptyFile) =
      { isValid := false, error := some "File is empty" } ∧
    validateFile (some textFile) =
      { isValid := false, error := some mediaTypeErrorMsg } ∧
    (validateFile (some smallPngFile)).error ≠ some mediaTypeErrorMsg :=
  ⟨(validateFile_size_and_type_checks oversizedFile).1 (by decide),
   (validateFile_size_and_type_checks emptyFile).2.1 rfl,
   (validateFile_size_and_type_checks textFile).2.2.1 (by decide) (by decide)
     (by decide),
   (validateFile_size_and_type_checks smallPngFile).2.2.2 (by decide)⟩

/-- C7: sanitizing a filename is idempotent for every filename, and for
every filename already in canonical sanitized form (only characters of
`[a-zA-Z0-9._-]`, no consecutive dots, no leading dot, length within
`MAX_FILENAME_LENGTH`) sanitization returns the same filename. -/
theorem sanitizeFilename_idempotent (s : String) :
    sanitizeFilename (sanitizeFilename s) = sanitizeFilename s ∧
    (isCanonical s = true → sanitizeFilename s = s) := by
  constructor
  · exact congrArg String.mk (sanitizeList_idem s.data)
  · intro h
    exact congrArg String.mk (sanitizeList_of_canonical s.data h)

/-- C7 (witness): idempotence and fixed-point behaviour at the concrete
canonical filename "photo.png". -/
theorem sanitizeFilename_idempotent_witness :
    isCanonical "photo.png" = true ∧
    sanitizeFilename "photo.png" = "photo.png" :=
  ⟨by decide, (sanitizeFilename_idempotent "photo.png").2 (by decide)⟩

/-- C8 (counterexample): the claim requires the format→extension and
format→MIME mappings to be bidirectional-consistent (1:1), but the
distinct enumeration members `jpeg` and `jpg` share the extension
".jpg" and the MIME type "image/jpeg", so neither mapping is
injective. -/
theorem format_mapping_not_injective :
    SupportedFormat.jpeg ≠ SupportedFormat.jpg ∧
    getFileExtension SupportedFormat.jpeg.str =
      getFileExtension SupportedFormat.jpg.str ∧
    getMimeType SupportedFormat.jpeg.str = getMimeType SupportedFormat.jpg.str :=
  ⟨by decide, rfl, rfl⟩

/-- C8 (amended): both runtime tables are total on the supported-format
enumeration (no member misses an entry, so the `|| ".jpg"` and
`|| "image/jpeg"` fallbacks are dead for enumeration members), have no
duplicate keys (each member maps to exactly one extension and one MIME
type), and are injective except for the deliberate `jpeg`/`jpg` alias
pair. -/
theorem format_mapping_total_and_almost_injective :
    (∀ f : SupportedFormat,
      (extensionTable.lookup f.str).isSome = true ∧
      (mimeTable.lookup f.str).isSome = true) ∧
    (extensionTable.map Prod.fst).Nodup ∧
    (mimeTable.map Prod.fst).Nodup ∧
    (∀ f g : SupportedFormat,
      getFileExtension f.str = getFileExtension g.str →
      f = g ∨ (f = SupportedFormat.jpeg ∧ g = SupportedFormat.jpg) ∨
        (f = SupportedFormat.jpg ∧ g = SupportedFormat.jpeg)) ∧
    (∀ f g : SupportedFormat,
      getMimeType f.str = getMimeType g.str →
      f = g ∨ (f = SupportedFormat.jpeg ∧ g = SupportedFormat.jpg) ∨
        (f = SupportedFormat.jpg ∧ g = SupportedFormat.jpeg)) := by
  decide

/-- C8 (witness): totality and the almost-injectivity conclusion
instantiated at the `png` member. -/
theorem format_mapping_total_and_almost_injective_witness :
    (extensionTable.lookup SupportedFormat.png.str).isSome = true ∧
    (SupportedFormat.png = SupportedFormat.png ∨
      (SupportedFormat.png = SupportedFormat.jpeg ∧
        SupportedFormat.png = SupportedFormat.jpg) ∨
      (SupportedFormat.png = SupportedFormat.jpg ∧
        SupportedFormat.png = SupportedFormat.jpeg)) :=
  ⟨(format_mapping_total_and_almost_injective.1 SupportedFormat.png).1,
   format_mapping_total_and_almost_injective.2.2.2.1 SupportedFormat.png
     SupportedFormat.png rfl⟩

/-- C3: the output filename is built from `name.split(".")[0]`, which
keeps everything before the FIRST dot, not everything before the final
dot as the claim states.  For the valid source filename
"photo.backup.png" converted to webp, the code returns "photo.webp",
whereas stripping only the final extension would give
"photo.backup.webp". -/
theorem output_filename_uses_first_dot :
    (convertFile okStubEngine
        { file := some multiDotFile, targetFormat := some "webp" }).fileName =
      some "photo.webp" ∧
    "photo.webp" ≠ "photo.backup.webp" := by
  constructor
  · decide
  · decide

/-- An unsupported format string produces no encode call. -/
theorem buildSpec_unsupported (opts : ConversionOptions)
    (h : opts.format ∉ supportedFormatStrings) : buildSpec opts = none := by
  simp only [supportedFormatStrings, List.mem_cons,
    List.mem_singleton, not_or] at h
  obtain ⟨h1, h2, h3, h4, h5, h6, h7⟩ := h
  simp [buildSpec, h1, h2, h3, h4, h5, h6, h7]

/-- An unsupported format string produces no job. -/
theorem buildJob_unsupported (buf : List Nat) (opts : ConversionOptions)
    (h : opts.format ∉ supportedFormatStrings) : buildJob buf opts = none := by
  simp [buildJob, buildSpec_unsupported opts h]

/-- Every supported format string produces an encode call. -/
theorem buildSpec_supported (opts : ConversionOptions)
    (h : opts.format ∈ supportedFormatStrings) :
    (buildSpec opts).isSome = true := by
  simp only [supportedFormatStrings, List.mem_cons, List.not_mem_nil,
    or_false] at h
  rcases h with h | h | h | h | h | h | h <;> simp [buildSpec, h]

/-- Every supported format string produces a job. -/
theorem buildJob_supported (buf : List Nat) (opts : ConversionOptions)
    (h : opts.format ∈ supportedFormatStrings) :
    (buildJob buf opts).isSome = true := by
  rcases hb : buildSpec opts with _ | spec
  · have := buildSpec_supported opts h
    rw [hb] at this
    exact absurd this (by decide)
  · simp [buildJob, hb]

/-- On an unsupported format `convertImage` fails with the wrapped
`Unsupported format` message without consulting the engine. -/
theorem convertImage_unsupported (e : Engine) (buf : List Nat)
    (opts : ConversionOptions) (h : opts.format ∉ supportedFormatStrings) :
    convertImage e buf opts =
      Except.error ("Failed to convert image: Unsupported format: " ++
        opts.format) := by
  simp [convertImage, buildJob_unsupported buf opts h]

/-- When the engine fails, `convertImage` on a supported format returns
the engine's message prefixed with "Failed to convert image: ". -/
theorem convertImage_engine_error (e : Engine) (buf : List Nat)
    (opts : ConversionOptions) (msg : String)
    (hts : opts.format ∈ supportedFormatStrings)
    (he : ∀ job, e job = Except.error msg) :
    convertImage e buf opts =
      Except.error ("Failed to convert image: " ++ msg) := by
  rcases hb : buildJob buf opts with _ | job
  · have := buildJob_supported buf opts hts
    rw [hb] at this
    exact absurd this (by decide)
  · simp [convertImage, hb, he job]

/-- C4: a request whose target format is outside the supported
enumeration is rejected (success = false) and the engine is never
invoked — the response does not depend on the engine at all; when the
earlier validations pass and the format string is non-empty, the error
is the wrapped `Unsupported format` failure raised before any encode is
attempted. -/
theorem unsupported_format_rejected_without_engine
    (e1 e2 : Engine) (form : FormDataModel) (tf : String)
    (hf : form.targetFormat = some tf)
    (hns : tf ∉ supportedFormatStrings) :
    convertFile e1 form = convertFile e2 form ∧
    (convertFile e1 form).success = false ∧
    ((validateFile form.file).isValid = true →
      (validateQuality (qualityToRat form.quality)).isValid = true →
      tf ≠ "" →
      (convertFile e1 form).error =
        some ("Failed to convert image: Unsupported format: " ++ tf)) := by
  by_cases hv1 : (validateFile form.file).isValid = true
  · by_cases hv2 : (validateQuality (qualityToRat form.quality)).isValid = true
    · by_cases h0 : tf = ""
      · refine ⟨?_, ?_, ?_⟩ <;>
          simp [convertFile, hf, hv1, hv2, falsyFmt, h0]
      · cases hfile : form.file with
        | none =>
          rw [hfile] at hv1
          exact absurd hv1 (by decide)
        | some vf =>
          rw [hfile] at hv1
          have him : ∀ e : Engine, convertImage e vf.content
              { format := tf, quality := qualityToRat form.quality,
                width := form.width, height := form.height } =
              Except.error
                ("Failed to convert image: Unsupported format: " ++ tf) :=
            fun e => convertImage_unsupported e _ _ hns
          refine ⟨?_, ?_, ?_⟩ <;>
            simp [convertFile, hf, hfile, hv1, hv2, falsyFmt, h0, him]
    · have hv2f : (validateQuality (qualityToRat form.quality)).isValid = false := by
        cases hb : (validateQuality (qualityToRat form.quality)).isValid
        · rfl
        · exact absurd hb hv2
      refine ⟨?_, ?_, ?_⟩ <;> simp [convertFile, hv1, hv2f]
  · have hv1f : (validateFile form.file).isValid = false := by
      cases hb : (validateFile form.file).isValid
      · rfl
      · exact absurd hb hv1
    refine ⟨?_, ?_, ?_⟩ <;> simp [convertFile, hv1f]

/-- C4 (witness): the unsupported format "bogus" on a valid PNG gives
the same rejection under two different engines, with the wrapped
`Unsupported format` error. -/
theorem unsupported_format_rejected_without_engine_witness :
    convertFile okStubEngine bogusFormatForm =
      convertFile failStubEngine bogusFormatForm ∧
    (convertFile okStubEngine bogusFormatForm).success = false ∧
    (convertFile okStubEngine bogusFormatForm).error =
      some ("Failed to convert image: Unsupported format: " ++ "bogus") :=
  ⟨(unsupported_format_rejected_without_engine okStubEngine failStubEngine
      bogusFormatForm "bogus" rfl (by decide)).1,
   (unsupported_format_rejected_without_engine okStubEngine failStubEngine
      bogusFormatForm "bogus" rfl (by decide)).2.1,
   (unsupported_format_rejected_without_engine okStubEngine failStubEngine
      bogusFormatForm "bogus" rfl (by decide)).2.2 (by decide) (by decide)
     (by decide)⟩

/-- C5 (counterexample): the claim says the error message never exposes
the engine's low-level cause, but the `catch` in `convertImage` rethrows
`Failed to convert image: ${error.message}` and `convertFile` returns
that message verbatim: the internal cause "boom_internal_detail" is
shown to the caller. -/
theorem engine_error_message_exposed :
    (convertFile failStubEngine
        { file := some smallPngFile, targetFormat := some "png" }).error =
      some ("Failed to convert image: " ++ "boom_internal_detail") := by
  decide

/-- C5 (amended): `convertFile` catches every engine failure and returns
success = false, but the error message embeds the engine's own message
after the "Failed to convert image: " prefix (only the prefix is added;
the low-level cause is included, not hidden). -/
theorem engine_failure_wrapped_with_cause
    (e : Engine) (form : FormDataModel) (tf msg : String)
    (hf : form.targetFormat = some tf)
    (hts : tf ∈ supportedFormatStrings)
    (hv1 : (validateFile form.file).isValid = true)
    (hv2 : (validateQuality (qualityToRat form.quality)).isValid = true)
    (he : ∀ job, e job = Except.error msg) :
    convertFile e form =
      { success := false,
        error := some ("Failed to convert image: " ++ msg) } := by
  have h0 : tf ≠ "" := by
    intro hcontra
    rw [hcontra] at hts
    exact absurd hts (by decide)
  cases hfile : form.file with
  | none =>
    rw [hfile] at hv1
    exact absurd hv1 (by decide)
  | some vf =>
    rw [hfile] at hv1
    have him : convertImage e vf.content
        { format := tf, quality := qualityToRat form.quality,
          width := form.width, height := form.height } =
        Except.error ("Failed to convert image: " ++ msg) :=
      convertImage_engine_error e _ _ msg hts he
    simp [convertFile, hf, hfile, hv1, hv2, falsyFmt, h0, him]

/-- C5 (amended, witness): a failing engine on a valid tiff request
yields the wrapped failure envelope. -/
theorem engine_failure_wrapped_with_cause_witness :
    convertFile failStubEngine tiffForm =
      { success := false,
        error := some ("Failed to convert image: " ++ "boom_internal_detail") } :=
  engine_failure_wrapped_with_cause failStubEngine tiffForm "tiff"
    "boom_internal_detail" rfl (by decide) (by decide) (by decide)
    (fun _ => rfl)

/-- C6 (counterexample): the claim says a request with width over the
10000 bound is rejected before conversion, but the pipeline performs no
width/height validation: a request with width 20000 converts
successfully. -/
theorem oversized_width_not_rejected :
    (convertFile okStubEngine
        { file := some smallPngFile, targetFormat := some "png",
          width := some 20000 }).success = true := by
  decide

/-- C6 (amended): the pipeline never validates width or height; any
present nonzero dimensions — including values above 10000 or negative
ones — are forwarded unchanged into the engine's resize options (with
fit "inside" and upscaling disallowed). -/
theorem resize_dimensions_forwarded_unchecked
    (buf : List Nat) (opts : ConversionOptions) (job : EncodeJob)
    (hfit : opts.fit = none)
    (hj : buildJob buf opts = some job)
    (hw : (truthyNum opts.width || truthyNum opts.height) = true) :
    job.resize = some { width := opts.width, height := opts.height,
                        fit := "inside", withoutEnlargement := true } := by
  rw [buildJob] at hj
  rcases hs : buildSpec opts with _ | spec
  · rw [hs] at hj
    exact absurd hj (by simp)
  · rw [hs] at hj
    simp only [Option.some.injEq] at hj
    rw [← hj]
    simp [buildResize, hw, hfit]

/-- C6 (amended, witness): width 20000 is forwarded unchanged into the
resize options of the generated job. -/
theorem resize_dimensions_forwarded_unchecked_witness :
    buildJob [1] overWidthOptions = some overWidthJob ∧
    overWidthJob.resize = some { width := some 20000, height := none,
                                 fit := "inside", withoutEnlargement := true } :=
  ⟨by decide,
   resize_dimensions_forwarded_unchecked [1] overWidthOptions overWidthJob
     rfl (by decide) (by decide)⟩

/-- C9: when quality is absent the encode call carries the default
quality 90 for every format whose encoder takes a quality parameter
(the png and gif encoders take none), and whenever width or height is
present (nonzero) and no fit override is given, the resize options use
fit "inside" with upscaling disallowed. -/
theorem default_quality_and_resize_policy
    (buf : List Nat) (opts : ConversionOptions) (job : EncodeJob)
    (hq : opts.quality = none) (hfit : opts.fit = none)
    (hj : buildJob buf opts = some job) :
    ((opts.format = "png" ∨ opts.format = "gif") →
      job.encode.qualityOf = none) ∧
    (opts.format ≠ "png" → opts.format ≠ "gif" →
      job.encode.qualityOf = some DEFAULT_QUALITY) ∧
    ((truthyNum opts.width || truthyNum opts.height) = true →
      job.resize = some { width := opts.width, height := opts.height,
                          fit := "inside", withoutEnlargement := true }) := by
  rw [buildJob] at hj
  rcases hs : buildSpec opts with _ | spec
  · rw [hs] at hj
    exact absurd hj (by simp)
  · rw [hs] at hj
    simp only [Option.some.injEq] at hj
    rw [← hj]
    refine ⟨?_, ?_, ?_⟩
    · intro hpg
      rw [buildSpec] at hs
      rcases hpg with hp | hg
      · rw [if_neg (by rw [hp]; decide), if_pos hp] at hs
        simp only [Option.some.injEq] at hs
        rw [← hs]
        rfl
      · rw [if_neg (by rw [hg]; decide), if_neg (by rw [hg]; decide),
          if_neg (by rw [hg]; decide), if_neg (by rw [hg]; decide),
          if_neg (by rw [hg]; decide), if_pos hg] at hs
        simp only [Option.some.injEq] at hs
        rw [← hs]
        rfl
    · intro hnp hng
      rw [buildSpec] at hs
      simp only [hq, Option.getD_none] at hs
      by_cases c1 : opts.format = "jpeg" ∨ opts.format = "jpg"
      · rw [if_pos c1] at hs
        simp only [Option.some.injEq] at hs
        rw [← hs]; rfl
      · rw [if_neg c1, if_neg hnp] at hs
        by_cases c3 : opts.format = "webp"
        · rw [if_pos c3] at hs
          simp only [Option.some.injEq] at hs
          rw [← hs]; rfl
        · rw [if_neg c3] at hs
          by_cases c4 : opts.format = "avif"
          · rw [if_pos c4] at hs
            simp only [Option.some.injEq] at hs
            rw [← hs]; rfl
          · rw [if_neg c4] at hs
            by_cases c5 : opts.format = "tiff"
            · rw [if_pos c5] at hs
              simp only [Option.some.injEq] at hs
              rw [← hs]; rfl
            · rw [if_neg c5, if_neg hng] at hs
              exact Option.noConfusion hs
    · intro hw
      simp [buildResize, hw, hfit]

/-- C9 (witness): a webp request with absent quality and width 100
yields an encode call with quality 90 and an "inside"/no-upscaling
resize. -/
theorem default_quality_and_resize_policy_witness :
    buildJob [1] webpResizeOptions = some webpResizeJob ∧
    webpResizeJob.encode.qualityOf = some DEFAULT_QUALITY ∧
    webpResizeJob.resize = some { width := some 100, height := none,
                                  fit := "inside", withoutEnlargement := true } :=
  ⟨by decide,
   (default_quality_and_resize_policy [1] webpResizeOptions webpResizeJob
      rfl rfl (by decide)).2.1 (by decide) (by decide),
   (default_quality_and_resize_policy [1] webpResizeOptions webpResizeJob
      rfl rfl (by decide)).2.2 (by decide)⟩

end FileConverter
